import Mathlib

/-!
Verification of the keyframe-curve transcoding logic of the faceit add-on.

The Python sources are shallowly embedded: keyframe arrays (numpy arrays of
shape (n, 2) whose column 0 holds frames and column 1 holds values) become
lists of pairs of rationals, Python dictionaries become association lists in
insertion order, in-place numpy mutation becomes explicit construction of the
updated value, and Python errors (UnboundLocalError, ZeroDivisionError)
become error values of an `Except`/`Option` result.  Machine floats are
modelled by exact rationals.
-/

/- ------------------------------------------------------------------
   src/ctrl_rig/control_rig_bake_utils.py, scale_to_new_range
   (lines 20-54).
   `kf_data` : keyframes, col 0 = frames, col 1 = values.
   The source first divides the value column by `amplify_compensation`
   in place, reassigns `max_range`/`min_range` according to `range`,
   `main_dir` and `is_scale`, scales, and re-combines with the
   untouched frame column (np.vstack(...).T).
   ------------------------------------------------------------------ -/

def scale_to_new_range (kf_data : List (ℚ × ℚ)) (min_range max_range sk_max sk_min : ℚ)
    (range : String) (main_dir : ℤ) (is_scale : Bool) (amplify_compensation : ℚ) :
    List (ℚ × ℚ) :=
  let frames := kf_data.map Prod.fst
  let data := kf_data.map Prod.snd
  let data := data.map (fun v => v / amplify_compensation)
  let max_range := if range == "neg" then min_range else max_range
  let max_range := if range == "all" && main_dir == -1 then min_range else max_range
  let min_range : ℚ := if is_scale then 1 else 0
  let scaled_data :=
    data.map (fun d => (max_range - min_range) * (d - sk_min) / (sk_max - sk_min) + min_range)
  frames.zip scaled_data

/-- Rest value of the target channel as the claim states it:
1 for scale channels, 0 otherwise. -/
def target_rest_value (is_scale : Bool) : ℚ := if is_scale then 1 else 0

/-- Range extreme of the target bone as the claim states it: `min_range` when
`range = "neg"`, or when `range = "all"` and `main_dir = -1`; otherwise
`max_range`. -/
def target_extreme (range : String) (main_dir : ℤ) (min_range max_range : ℚ) : ℚ :=
  if range = "neg" ∨ (range = "all" ∧ main_dir = -1) then min_range else max_range

/- ------------------------------------------------------------------
   Python substring test `sub in s`, over explicit character lists.
   ------------------------------------------------------------------ -/

def hasSubstr : List Char → List Char → Bool
  | k, [] => k.isEmpty
  | k, c :: rest => k.isPrefixOf (c :: rest) || hasSubstr k rest

def strIn (sub s : String) : Bool := hasSubstr sub.data s.data

/- ------------------------------------------------------------------
   src/ctrl_rig/control_rig_bake_utils.py, populate_motion_data_dict
   (lines 57-84).  `bone_motion_data` is a Python dict keyed by
   '{dp}_{i}' strings, modelled as an insertion-ordered association
   list.  A scale target receives three channels (array_index =
   range(3)); an `int` array_index is wrapped into a one-element list
   by the source, so the embedding takes the index list directly.
   ------------------------------------------------------------------ -/

structure MotionEntry where
  data_path : String
  array_index : ℕ
  kf_data : List (ℚ × ℚ)
deriving DecidableEq

def dictGet {κ α : Type} [BEq κ] (d : List (κ × α)) (k : κ) : Option α :=
  List.lookup k d

def dictSet {κ α : Type} [BEq κ] (d : List (κ × α)) (k : κ) (v : α) : List (κ × α) :=
  match d with
  | [] => [(k, v)]
  | (k', v') :: rest => if k' == k then (k', v) :: rest else (k', v') :: dictSet rest k v

/-- Semantics of the in-place numpy addition
`stored[:, 1] += new[:, 1]`: element-wise sum of the value columns when the
row counts agree, broadcast when the new array has a single row, and a
`ValueError` (modelled as `none`) otherwise.  The frame column of the stored
array is untouched. -/
def np_add_col1 (stored new : List (ℚ × ℚ)) : Option (List (ℚ × ℚ)) :=
  if stored.length = new.length then
    some ((stored.zip new).map (fun q => (q.1.1, q.1.2 + q.2.2)))
  else
    match new with
    | [(_, nv)] => some (stored.map (fun p => (p.1, p.2 + nv)))
    | _ => none

def fcurve_identifier (dp : String) (i : ℕ) : String := dp ++ "_" ++ toString i

def populate_motion_data_dict (dp : String) (array_index : List ℕ)
    (new_kf_data : List (ℚ × ℚ)) (is_scale : Bool)
    (bone_motion_data : List (String × MotionEntry)) : List (String × MotionEntry) :=
  let idxs := if is_scale then [0, 1, 2] else array_index
  idxs.foldl (fun d i =>
    let key := fcurve_identifier dp i
    match dictGet d key with
    | some motion_data =>
      if !(strIn "scale" dp) then
        match np_add_col1 motion_data.kf_data new_kf_data with
        | some added =>
          dictSet d key ⟨motion_data.data_path, motion_data.array_index, added⟩
        | none => d
      else dictSet d key ⟨dp, i, new_kf_data⟩
    | none => dictSet d key ⟨dp, i, new_kf_data⟩) bone_motion_data

/- ------------------------------------------------------------------
   src/ctrl_rig/control_rig_bake_utils.py, final write loop of
   bake_shape_keys_to_ctrl_rig (lines 171-185) and of
   bake_ctrl_rig_animation_to_shape_keys (lines 232-246).
   The first loop copies each collected array (np.copy), adds
   `frame_start` to the frame column of the copy only, and emits the
   copy; the dictionary therefore still holds the original arrays
   afterwards (second component).  The second loop builds a fresh
   array from the sampled (frame, value) pairs and adds `start_frame`
   to its frame column before writing.
   ------------------------------------------------------------------ -/

structure FCurveWrite where
  data_path : String
  array_index : ℕ
  kf_data : List (ℚ × ℚ)
deriving DecidableEq

def np_copy (a : List (ℚ × ℚ)) : List (ℚ × ℚ) := a

def np_add_col0 (a : List (ℚ × ℚ)) (x : ℚ) : List (ℚ × ℚ) :=
  a.map (fun p => (p.1 + x, p.2))

def bake_shape_keys_write_loop (bone_motion_data : List (String × MotionEntry))
    (frame_start : ℚ) : List FCurveWrite × List (String × MotionEntry) :=
  (bone_motion_data.map (fun e =>
      let data := e.2.kf_data
      let data_copy := np_copy data
      let data_copy := np_add_col0 data_copy frame_start
      ⟨e.2.data_path, e.2.array_index, data_copy⟩),
    bone_motion_data)

def bake_ctrl_rig_write_loop (anim_data_dict : List (String × List (ℚ × ℚ)))
    (start_frame : ℚ) : List (String × List (ℚ × ℚ)) :=
  anim_data_dict.map (fun e => (e.1, np_add_col0 e.2 start_frame))

/- ------------------------------------------------------------------
   src/animate/anim_utils.py, get_active_animation_fcurves_from_id
   (lines 23-51) and get_fcurves_from_slot (lines 90-110).
   The host data model (IDs, animation data, actions, slots, channel
   bags) is embedded as records; the two bpy_extras.anim_utils helpers
   the source calls are external and appear as fields of `BlEnv`.
   A Python `UnboundLocalError` (reading a local that no branch
   assigned) is modelled as `Except.error`.
   ------------------------------------------------------------------ -/

structure BlFCurve where
  data_path : String
  array_index : ℕ
deriving DecidableEq

structure ChannelBag where
  fcurves : List BlFCurve
deriving DecidableEq

structure BlSlot where
  handle : ℕ
deriving DecidableEq

structure BlAction where
  fcurves : List BlFCurve
deriving DecidableEq

structure BlAnimData where
  action : Option BlAction
  action_slot : Option BlSlot
deriving DecidableEq

structure BlID where
  animation_data : Option BlAnimData
deriving DecidableEq

structure BlEnv where
  version_ge_4_4 : Bool
  action_get_channelbag_for_slot : BlAction → Option BlSlot → Option ChannelBag
  ensure_channelbag : BlAction → Option BlSlot → ChannelBag

def get_active_animation_fcurves_from_id (env : BlEnv) (target_id : Option BlID) :
    Except String (List BlFCurve) :=
  match target_id with
  | none => .ok []
  | some tid =>
    match tid.animation_data with
    | none => .ok []
    | some adt =>
      match adt.action with
      | none => .ok []
      | some action =>
        if env.version_ge_4_4 then
          match adt.action_slot with
          | none => .error "UnboundLocalError"
          | some slot =>
            match env.action_get_channelbag_for_slot action (some slot) with
            | some channelbag => .ok channelbag.fcurves
            | none => .error "UnboundLocalError"
        else .ok action.fcurves

def get_fcurves_from_slot (env : BlEnv) (action : BlAction) (slot : Option BlSlot)
    (ensure : Bool) : Except String (List BlFCurve) :=
  if env.version_ge_4_4 then
    match env.action_get_channelbag_for_slot action slot with
    | some channelbag => .ok channelbag.fcurves
    | none =>
      if ensure then .ok (env.ensure_channelbag action slot).fcurves
      else .error "UnboundLocalError"
  else .ok action.fcurves

/-- A Blender 4.4+ host in which the looked-up slot has no channel bag. -/
def env_4_4_no_bag : BlEnv := ⟨true, fun _ _ => none, fun _ _ => ⟨[]⟩⟩

/- ------------------------------------------------------------------
   src/animate/animate_operators.py,
   FACEIT_OT_AppendActionToFaceitRig.execute: zero-frame construction
   (lines 921-928) and per-channel fcurve population on the temporary
   action (lines 1072-1087).
   ------------------------------------------------------------------ -/

structure ActionKF where
  frame : ℚ
  value : ℚ
  interpolation : String
deriving DecidableEq

/-- The set built by
`zero_frames.update((frame + 1, frame - 9))` for `frame = (i + 1) * 10`,
`i` in `range(new_expression_count)`. -/
def zero_frames_finset (n : ℕ) : Finset ℤ :=
  (Finset.range n).biUnion (fun i => {((i : ℤ) + 1) * 10 + 1, ((i : ℤ) + 1) * 10 - 9})

/-- `zero_frames = sorted(list(zero_frames))`. -/
def zero_frames_sorted (n : ℕ) : List ℤ :=
  (zero_frames_finset n).sort (· ≤ ·)

/-- Modelled from the spec: `fc_dr_utils.populate_keyframe_points_from_np_array`
(module core/fc_dr_utils.py, not under src/) called with `add=True` inserts
one keyframe per row of the array into the fcurve, keeping the existing
points; Blender's default interpolation for new keyframes is `BEZIER`. -/
def populate_keyframe_points (fc : List ActionKF) (kf_data : List (ℚ × ℚ)) : List ActionKF :=
  fc ++ kf_data.map (fun p => ⟨p.1, p.2, "BEZIER"⟩)

/-- Lines 1078-1087: zero keyframes `(f, default[i])` for all zero frames are
stacked under the loaded data (np.vstack), the fcurve is populated, and every
keyframe point of the fcurve is then set to LINEAR interpolation. -/
def append_action_channel_points (data : Option (List (ℚ × ℚ))) (default_i : ℚ)
    (zero_frames : List ℤ) (fc : List ActionKF) : List ActionKF :=
  let kf_zero_data := zero_frames.map (fun f : ℤ => ((f : ℚ), default_i))
  let kf_data :=
    match data with
    | some d => d ++ kf_zero_data
    | none => kf_zero_data
  let fc := populate_keyframe_points fc kf_data
  fc.map (fun kf => ⟨kf.frame, kf.value, "LINEAR"⟩)

/- ------------------------------------------------------------------
   src/animate/animate_operators.py,
   FACEIT_OT_ExportExpressionsToJson.execute, fcurve export loop
   (lines 1459-1496).
   ------------------------------------------------------------------ -/

structure ExpFCurve where
  data_path : String
  array_index : ℕ
  kf_data : List (ℚ × ℚ)
deriving DecidableEq

/-- Python float modulo (sign of the divisor), used by
`kf_data[:, 0] % 10`. -/
def pymod (a b : ℚ) : ℚ := a - b * ⌊a / b⌋

/-- The condition
`"scale" in fc.data_path or "rotation_quaternion" in fc.data_path and array_index == 0`
(Python `and` binds tighter than `or`). -/
def export_rest_cond (dp : String) (array_index : ℕ) : Bool :=
  strIn "scale" dp || (strIn "rotation_quaternion" dp && array_index == 0)

/-- Rest value of a channel as the claim states it: 1.0 where
`export_rest_cond` holds, 0.0 elsewhere. -/
def export_rest_value (dp : String) (array_index : ℕ) : ℚ :=
  if export_rest_cond dp array_index then 1 else 0

/-- One iteration of the export loop: skip filters, then
`remove_zero_poses` (frames not divisible by 10), then
`remove_zero_keyframes` (values equal to the channel default), then the
empty check (`if not kf_anim_data: continue`). -/
def export_process_fcurve (rig_type : String) (fc : ExpFCurve) :
    Option (List (ℚ × ℚ)) :=
  if (rig_type == "RIGIFY" || rig_type == "RIGIFY_NEW") &&
      (strIn "DEF-" fc.data_path || strIn "MCH-" fc.data_path ||
        strIn "ORG-" fc.data_path) then
    none
  else if strIn "influence" fc.data_path then none
  else if strIn "mouth_lock" fc.data_path then none
  else
    let kf_data := fc.kf_data.filter (fun p => !(pymod p.1 10 != 0))
    let kf_data :=
      if export_rest_cond fc.data_path fc.array_index then
        kf_data.filter (fun p => !(p.2 == 1))
      else kf_data.filter (fun p => !(p.2 == 0))
    if kf_data.isEmpty then none else some kf_data

/-- The `action_dict` accumulation (lines 1488-1492): per data path a nested
dict from array index to keyframe list. -/
def export_action_dict (rig_type : String) (fcurves : List ExpFCurve) :
    List (String × List (ℕ × List (ℚ × ℚ))) :=
  fcurves.foldl (fun action_dict fc =>
    match export_process_fcurve rig_type fc with
    | none => action_dict
    | some kf_anim_data =>
      match dictGet action_dict fc.data_path with
      | some dp_dict =>
        dictSet action_dict fc.data_path (dictSet dp_dict fc.array_index kf_anim_data)
      | none => dictSet action_dict fc.data_path [(fc.array_index, kf_anim_data)]) []

/- ------------------------------------------------------------------
   src/animate/animate_operators.py,
   FACEIT_OT_AppendActionToFaceitRig.execute, rotation-mode conversion
   of loaded animation data (lines 1040-1071).
   `data_per_array_index` maps the stringified array index to a list of
   (frame, value) samples.  The actual rotation conversion
   (a_utils.get_value_as_rotation / convert_rotation_values, module
   animate/animate_utils.py, not under src/) appears as an abstract
   `convert` function parameter.
   ------------------------------------------------------------------ -/

/-- Python `int(i)` on the (decimal digit) string keys of the data dict. -/
def pyInt (s : String) : ℕ :=
  s.data.foldl (fun acc c => acc * 10 + (c.toNat - 48)) 0

/-- Lines 1040-1046: regroup the per-channel samples into a per-frame dict
`frame -> (channel index -> value)`. -/
def build_frames_dict (data_per_array_index : List (String × List (ℚ × ℚ))) :
    List (ℚ × List (ℕ × ℚ)) :=
  data_per_array_index.foldl (fun frames_dict entry =>
    let i := pyInt entry.1
    entry.2.foldl (fun fd p =>
      let inner := (dictGet fd p.1).getD []
      dictSet fd p.1 (dictSet inner i p.2)) frames_dict) []

/-- Lines 1050-1057: assemble the full rotation vector for one frame.
`val = value_dict.get(i); if val: ... else: rot_value.append(default[i])` —
Python's truthiness makes a stored sample with value 0.0 take the
default branch, exactly like a missing sample. -/
def reconstruct_rot_value (channels : ℕ) (default : List ℚ)
    (value_dict : List (ℕ × ℚ)) : List ℚ :=
  (List.range channels).map (fun i =>
    match dictGet value_dict i with
    | some val => if val == 0 then default.getD i 0 else val
    | none => default.getD i 0)

/-- Lines 1048-1065: rebuild `data_per_array_index` in the target rotation
mode, one keyframe per target channel per frame. -/
def convert_rotation_animation (convert : List ℚ → List ℚ) (channels : ℕ)
    (default : List ℚ) (data_per_array_index : List (String × List (ℚ × ℚ))) :
    List (String × List (ℚ × ℚ)) :=
  let frames_dict := build_frames_dict data_per_array_index
  frames_dict.foldl (fun new_data fv =>
    let rot_value := reconstruct_rot_value channels default fv.2
    let new_rot_value := convert rot_value
    new_rot_value.enum.foldl (fun nd iv =>
      let i := toString iv.1
      let entry := (dictGet nd i).getD []
      dictSet nd i (entry ++ [(fv.1, iv.2)])) new_data) []

/- ------------------------------------------------------------------
   src/animate/animate_operators.py,
   FACEIT_OT_AppendActionToFaceitRig.execute, automatic action scaling
   (get_import_rig_dimensions / get_rig_dimensions, lines 1134-1163,
   and the AUTO branch, lines 1165-1202).
   Bone positions (imported rest pose entries / pose-bone
   matrix_local translations) are triples of rationals; Python's
   max()/min() on an empty list would raise, so the dimension helpers
   are only meaningful for the non-empty bone lists the source
   guarantees.  A Python ZeroDivisionError is modelled as `none`.
   ------------------------------------------------------------------ -/

def listMax : List ℚ → ℚ
  | [] => 0
  | x :: xs => xs.foldl max x

def listMin : List ℚ → ℚ
  | [] => 0
  | x :: xs => xs.foldl min x

def get_import_rig_dimensions (rest_vals : List (ℚ × ℚ × ℚ)) : List ℚ :=
  let x_values := rest_vals.map (fun v => v.1)
  let y_values := rest_vals.map (fun v => v.2.1)
  let z_values := rest_vals.map (fun v => v.2.2)
  [listMax x_values - listMin x_values,
   listMax y_values - listMin y_values,
   listMax z_values - listMin z_values]

def get_rig_dimensions (trans_vals : List (ℚ × ℚ × ℚ)) : List ℚ :=
  let x_values := trans_vals.map (fun v => v.1)
  let y_values := trans_vals.map (fun v => v.2.1)
  let z_values := trans_vals.map (fun v => v.2.2)
  [listMax x_values - listMin x_values,
   listMax y_values - listMin y_values,
   listMax z_values - listMin z_values]

/-- Python float division; ZeroDivisionError as `none`. -/
def pyDiv (a b : ℚ) : Option ℚ := if b = 0 then none else some (a / b)

/-- `list.index(x)`: first index of `x` (callers guarantee presence). -/
def pyIndex (x : ℚ) : List ℚ → ℕ
  | [] => 0
  | y :: ys => if y == x then 0 else pyIndex x ys + 1

/-- Lines 1175-1182: `zero_dims = import_rig_dimensions.count(0)`; if
non-zero, the entry at `import_rig_dimensions.index(0)` — the FIRST zero
only — is replaced by `sum(import_rig_dimensions) / (3 - zero_dims)`. -/
def fill_zero_dims (dims : List ℚ) : Option (List ℚ) :=
  let zero_dims := dims.count 0
  if zero_dims ≠ 0 then
    let denom : ℚ := 3 - (zero_dims : ℚ)
    if denom = 0 then none
    else some (dims.set (pyIndex 0 dims) (dims.sum / denom))
  else some dims

/-- Lines 1183-1185: `action_scale[i] = rig_dim[i] / import_rig_dimensions[i]`
for i in range(3); a division by zero aborts the operator. -/
def auto_action_scale (rig_vals rest_vals : List (ℚ × ℚ × ℚ)) : Option (List ℚ) :=
  let import_rig_dimensions := get_import_rig_dimensions rest_vals
  match fill_zero_dims import_rig_dimensions with
  | none => none
  | some filled =>
    let rig_dim := get_rig_dimensions rig_vals
    match pyDiv (rig_dim.getD 0 0) (filled.getD 0 0),
        pyDiv (rig_dim.getD 1 0) (filled.getD 1 0),
        pyDiv (rig_dim.getD 2 0) (filled.getD 2 0) with
    | some s0, some s1, some s2 => some [s0, s1, s2]
    | _, _, _ => none

/-- Line 1187: `if not all(x == 1 for x in action_scale)` — the scaling step
runs only when this is true. -/
def should_scale (action_scale : List ℚ) : Bool :=
  !(action_scale.all (fun x => x == 1))

/-- Dimension fill-in as the claim states it: EVERY axis whose imported
dimension is 0 is replaced by the average of the other dimensions. -/
def spec_filled_dims (a b c : ℚ) : List ℚ :=
  [if a = 0 then (b + c) / 2 else a,
   if b = 0 then (a + c) / 2 else b,
   if c = 0 then (a + b) / 2 else c]

/- ------------------------------------------------------------------
   src/animate/animate_operators.py, expression-list operators:
   FACEIT_OT_AddExpressionItem.execute (lines 267-291, with its default
   `new_exp_index = -1`, the only value the add-on ever passes),
   FACEIT_OT_RemoveExpressionItem.execute / _remove_faceit_item
   (lines 1616-1648) and FACEIT_OT_MoveExpressionItem.execute
   (lines 466-525).  An expression item carries its name and its frame;
   an action fcurve is its list of (frame, value) keyframe points.
   ------------------------------------------------------------------ -/

structure ExpItem where
  name : String
  frame : ℚ
deriving DecidableEq

/-- Lines 277-287: `index = len(expression_list)`,
`frame = int(index + 1) * 10`, `item = expression_list.add()` (append). -/
def add_expression_item (expression_list : List ExpItem) (name : String) : List ExpItem :=
  let index := expression_list.length
  let frame : ℚ := ((index : ℚ) + 1) * 10
  expression_list ++ [⟨name, frame⟩]

/-- Lines 1625-1632: remove the keyframes sitting exactly at `frame`, then
shift every keyframe beyond `frame` back by 10. -/
def remove_expression_curve (frame : ℚ) (kfs : List (ℚ × ℚ)) : List (ℚ × ℚ) :=
  let kfs := kfs.filter (fun key => !(key.1 == frame))
  kfs.map (fun key => if key.1 > frame then (key.1 - 10, key.2) else key)

/-- Lines 1645-1648: `expression_list.remove(item_index)`, then every
remaining item whose frame lies beyond the removed frame moves back 10. -/
def remove_expression_item (expression_list : List ExpItem) (item_index : ℕ) :
    List ExpItem :=
  let frame := (expression_list.getD item_index ⟨"", 0⟩).frame
  let l := expression_list.eraseIdx item_index
  l.map (fun it => if it.frame > frame then ⟨it.name, it.frame - 10⟩ else it)

/-- Lines 492-503: the three keyframe passes of the move operator, with
`add_frame = add_index * 10`: keys at the neighbour's frame go to an
intermediate half-frame, keys at the moved item's frame jump by
`add_frame`, and the intermediate keys settle at the moved item's old
frame. -/
def move_swap_curve (expression_frame new_index_frame add_frame : ℚ)
    (kfs : List (ℚ × ℚ)) : List (ℚ × ℚ) :=
  let kfs := kfs.map (fun key =>
    if key.1 == new_index_frame then (key.1 - add_frame / 2, key.2) else key)
  let kfs := kfs.map (fun key =>
    if key.1 == expression_frame then (key.1 + add_frame, key.2) else key)
  kfs.map (fun key =>
    if key.1 == new_index_frame - add_frame / 2 then (key.1 - add_frame / 2, key.2) else key)

/-- Blender's `CollectionProperty.move(src, dst)`: take the element at
`src` out and re-insert it at `dst`. -/
def collection_move (l : List ExpItem) (src dst : ℕ) : List ExpItem :=
  match l[src]? with
  | none => l
  | some x => (l.eraseIdx src).insertIdx dst x

/-- Lines 520-523: swap the frames of the two items, then
`expression_list.move(new_index, index)`. -/
def move_expression_items (l : List ExpItem) (index new_index : ℕ) : List ExpItem :=
  let expression_item := l.getD index ⟨"", 0⟩
  let new_index_item := l.getD new_index ⟨"", 0⟩
  let expression_frame := expression_item.frame
  let new_index_frame := new_index_item.frame
  let l := l.set index ⟨expression_item.name, new_index_frame⟩
  let l := l.set new_index ⟨new_index_item.name, expression_frame⟩
  collection_move l new_index index

/-- The invariant the claim states: the item at position `k` has frame
`(k + 1) * 10`. -/
def frames_invariant (l : List ExpItem) : Prop :=
  ∀ k, k < l.length → (l.getD k ⟨"", 0⟩).frame = ((k : ℚ) + 1) * 10

/- ------------------------------------------------------------------
   src/animate/animate_operators.py, get_side (lines 57-68) and
   get_mirror_name (lines 84-102), with the mirror-side dictionaries
   of lines 36-54.  Expression names are character lists; Python's
   `str.replace` (every non-overlapping occurrence, left to right) is
   `replaceAll`, implemented with a structural character-count fuel so
   that it evaluates by kernel reduction; the fuel `s.length` always
   suffices because each step consumes at least one character.
   ------------------------------------------------------------------ -/

def replaceAllFuel (k v : List Char) : ℕ → List Char → List Char
  | 0, s => s
  | fuel + 1, s =>
    match s with
    | [] => []
    | c :: rest =>
      if k ≠ [] ∧ k.isPrefixOf (c :: rest) then
        v ++ replaceAllFuel k v fuel ((c :: rest).drop k.length)
      else
        c :: replaceAllFuel k v fuel rest

def replaceAll (k v s : List Char) : List Char := replaceAllFuel k v s.length s

def mirror_sides_dict_L : List (List Char × List Char) :=
  [("left".data, "right".data), ("Left".data, "Right".data), ("LEFT".data, "RIGHT".data)]

def mirror_sides_end_L : List (List Char × List Char) :=
  [("L".data, "R".data), ("_l".data, "_r".data)]

def mirror_sides_dict_R : List (List Char × List Char) :=
  [("right".data, "left".data), ("Right".data, "Left".data), ("RIGHT".data, "LEFT".data)]

def mirror_sides_end_R : List (List Char × List Char) :=
  [("R".data, "L".data), ("_r".data, "_l".data)]

def get_side (expression_name : List Char) : Char :=
  if mirror_sides_dict_L.any (fun kv => hasSubstr kv.1 expression_name) ||
      mirror_sides_end_L.any (fun kv => kv.1.isSuffixOf expression_name) then 'L'
  else if mirror_sides_dict_R.any (fun kv => hasSubstr kv.1 expression_name) ||
      mirror_sides_end_R.any (fun kv => kv.1.isSuffixOf expression_name) then 'R'
  else 'N'

/-- The two replacing loops of `get_mirror_name`: the first dictionary key
contained in (resp. ending) the name wins and every occurrence of it is
replaced. -/
def findReplaceDict (pairs : List (List Char × List Char)) (name : List Char) :
    Option (List Char) :=
  match pairs with
  | [] => none
  | (k, v) :: rest =>
    if hasSubstr k name then some (replaceAll k v name) else findReplaceDict rest name

def findReplaceEnd (pairs : List (List Char × List Char)) (name : List Char) :
    Option (List Char) :=
  match pairs with
  | [] => none
  | (k, v) :: rest =>
    if k.isSuffixOf name then some (replaceAll k v name) else findReplaceEnd rest name

def get_mirror_name (side : Char) (expression_name : List Char) : List Char :=
  if side = 'L' then
    match findReplaceDict mirror_sides_dict_L expression_name with
    | some r => r
    | none =>
      match findReplaceEnd mirror_sides_end_L expression_name with
      | some r => r
      | none => []
  else if side = 'R' then
    match findReplaceDict mirror_sides_dict_R expression_name with
    | some r => r
    | none =>
      match findReplaceEnd mirror_sides_end_R expression_name with
      | some r => r
      | none => []
  else []

theorem scale_to_new_range_eq_map (kf_data : List (ℚ × ℚ))
    (min_range max_range sk_max sk_min : ℚ) (range : String) (main_dir : ℤ)
    (is_scale : Bool) (amp : ℚ) :
    scale_to_new_range kf_data min_range max_range sk_max sk_min range main_dir is_scale amp =
      kf_data.map (fun p => (p.1,
        (target_extreme range main_dir min_range max_range - target_rest_value is_scale) *
          (p.2 / amp - sk_min) / (sk_max - sk_min) + target_rest_value is_scale)) := by
  unfold scale_to_new_range target_extreme target_rest_value
  simp only [List.map_map]
  rw [List.zip_map']
  apply List.map_congr_left
  intro p _
  by_cases h1 : range = "neg" <;> by_cases h2 : range = "all" <;>
    simp_all [Function.comp]

/-- Claim C1: with `sk_max ≠ sk_min` and `amplify_compensation ≠ 0`,
`scale_to_new_range` keeps the frame column unchanged and maps every value `v`
to `(M - m) * ((v / amp) - sk_min) / (sk_max - sk_min) + m`, where
`m = target_rest_value is_scale` and `M = target_extreme range main_dir
min_range max_range`; in particular an input value of `sk_min * amp` (the
shape-key minimum before amplify compensation) is sent to the rest value `m`
and an input value of `sk_max * amp` is sent to the range extreme `M`. -/
theorem scale_to_new_range_remaps (kf_data : List (ℚ × ℚ))
    (min_range max_range sk_max sk_min : ℚ) (range : String) (main_dir : ℤ)
    (is_scale : Bool) (amp : ℚ) (f : ℚ)
    (hsk : sk_max ≠ sk_min) (hamp : amp ≠ 0) :
    scale_to_new_range kf_data min_range max_range sk_max sk_min range main_dir is_scale amp =
      kf_data.map (fun p => (p.1,
        (target_extreme range main_dir min_range max_range - target_rest_value is_scale) *
          (p.2 / amp - sk_min) / (sk_max - sk_min) + target_rest_value is_scale)) ∧
    (scale_to_new_range kf_data min_range max_range sk_max sk_min range main_dir
        is_scale amp).map Prod.fst = kf_data.map Prod.fst ∧
    scale_to_new_range [(f, sk_min * amp)] min_range max_range sk_max sk_min range main_dir
        is_scale amp = [(f, target_rest_value is_scale)] ∧
    scale_to_new_range [(f, sk_max * amp)] min_range max_range sk_max sk_min range main_dir
        is_scale amp = [(f, target_extreme range main_dir min_range max_range)] := by
  have hcancel_min : sk_min * amp / amp = sk_min := mul_div_cancel_right₀ _ hamp
  have hcancel_max : sk_max * amp / amp = sk_max := mul_div_cancel_right₀ _ hamp
  have hne : sk_max - sk_min ≠ 0 := sub_ne_zero.mpr hsk
  refine ⟨scale_to_new_range_eq_map .., ?_, ?_, ?_⟩
  · rw [scale_to_new_range_eq_map]
    simp [List.map_map, Function.comp]
  · rw [scale_to_new_range_eq_map]
    simp [hcancel_min]
  · rw [scale_to_new_range_eq_map]
    simp only [List.map_cons, List.map_nil, hcancel_max]
    rw [mul_div_assoc, div_self hne, mul_one]
    simp

theorem scale_to_new_range_remaps_witness :
    (1 : ℚ) ≠ 0 ∧ (2 : ℚ) ≠ 0 ∧
    scale_to_new_range [((3 : ℚ), (2 : ℚ))] (-5) 4 1 0 "pos" 1 false 2 =
      [((3 : ℚ), (4 : ℚ))] := by
  refine ⟨by norm_num, by norm_num, ?_⟩
  have h := (scale_to_new_range_remaps [((3 : ℚ), (2 : ℚ))] (-5) 4 1 0 "pos" 1 false 2 3
      (by norm_num) (by norm_num)).2.2.2
  simp only [target_extreme] at h
  norm_num at h
  simpa using h

/-- Claim C3: both bake loops add the frame offset to the frame of every
keyframe they write while leaving the values untouched, and the offset of the
shape-key bake is applied to a copy, so the collected motion data
(`bone_motion_data`) is returned unchanged by the loop. -/
theorem bake_offset_frames (bone_motion_data : List (String × MotionEntry))
    (anim_data_dict : List (String × List (ℚ × ℚ))) (frame_start start_frame : ℚ) :
    (bake_shape_keys_write_loop bone_motion_data frame_start).2 = bone_motion_data ∧
    (bake_shape_keys_write_loop bone_motion_data frame_start).1 =
      bone_motion_data.map (fun e =>
        ⟨e.2.data_path, e.2.array_index,
          e.2.kf_data.map (fun p => (p.1 + frame_start, p.2))⟩) ∧
    bake_ctrl_rig_write_loop anim_data_dict start_frame =
      anim_data_dict.map (fun e =>
        (e.1, e.2.map (fun p => (p.1 + start_frame, p.2)))) := by
  refine ⟨rfl, ?_, ?_⟩ <;>
    simp [bake_shape_keys_write_loop, bake_ctrl_rig_write_loop, np_copy, np_add_col0]

theorem dictGet_dictSet_self {κ α : Type} [BEq κ] [LawfulBEq κ]
    (d : List (κ × α)) (k : κ) (v : α) :
    dictGet (dictSet d k v) k = some v := by
  induction d with
  | nil => simp [dictGet, dictSet, List.lookup]
  | cons hd tl ih =>
    obtain ⟨k', v'⟩ := hd
    by_cases h : k' = k
    · subst h
      simp [dictGet, dictSet, List.lookup]
    · have hb : (k' == k) = false := beq_eq_false_iff_ne.mpr h
      have hb' : (k == k') = false := beq_eq_false_iff_ne.mpr (Ne.symm h)
      simp only [dictSet, hb, Bool.false_eq_true, if_false]
      simpa [dictGet, List.lookup, hb'] using ih

theorem dictGet_dictSet_ne {κ α : Type} [BEq κ] [LawfulBEq κ]
    (d : List (κ × α)) (k k' : κ) (v : α)
    (h : k' ≠ k) : dictGet (dictSet d k v) k' = dictGet d k' := by
  induction d with
  | nil => simp [dictGet, dictSet, List.lookup, beq_eq_false_iff_ne.mpr h]
  | cons hd tl ih =>
    obtain ⟨k₀, v₀⟩ := hd
    by_cases h0 : k₀ = k
    · subst h0
      simp [dictGet, dictSet, List.lookup, beq_eq_false_iff_ne.mpr h]
    · have hb : (k₀ == k) = false := beq_eq_false_iff_ne.mpr h0
      simp only [dictSet, hb, Bool.false_eq_true, if_false]
      by_cases h1 : k' = k₀
      · subst h1
        simp [dictGet, List.lookup]
      · have hb1 : (k' == k₀) = false := beq_eq_false_iff_ne.mpr h1
        simpa [dictGet, List.lookup, hb1] using ih

theorem fcurve_identifier_inj (dp : String) (i j : ℕ)
    (h : fcurve_identifier dp i = fcurve_identifier dp j) : toString i = toString j := by
  have hdata := congrArg String.data h
  simp only [fcurve_identifier, String.data_append] at hdata
  exact String.ext (List.append_cancel_left hdata)

/-- Claim C8: for a non-scale data path whose identifier is already present
with a stored array of the same row count, `populate_motion_data_dict` adds
the new value column element-wise to the stored one and keeps the stored
frame column; for a scale data path with `is_scale` set, the motion data is
stored under array indices 0, 1 and 2, and existing entries are overwritten,
never summed. -/
theorem populate_motion_data_dict_spec (dp : String) (i : ℕ) (new : List (ℚ × ℚ))
    (d : List (String × MotionEntry)) :
    (∀ entry : MotionEntry, strIn "scale" dp = false →
      dictGet d (fcurve_identifier dp i) = some entry →
      entry.kf_data.length = new.length →
      populate_motion_data_dict dp [i] new false d =
        dictSet d (fcurve_identifier dp i)
          ⟨entry.data_path, entry.array_index,
            (entry.kf_data.zip new).map (fun q => (q.1.1, q.1.2 + q.2.2))⟩ ∧
      ((entry.kf_data.zip new).map (fun q => (q.1.1, q.1.2 + q.2.2))).map Prod.fst =
        entry.kf_data.map Prod.fst) ∧
    (strIn "scale" dp = true →
      ∀ j : ℕ, j ∈ ([0, 1, 2] : List ℕ) →
      dictGet (populate_motion_data_dict dp [i] new true d) (fcurve_identifier dp j) =
        some ⟨dp, j, new⟩) := by
  constructor
  · intro entry hscale hget hlen
    constructor
    · simp [populate_motion_data_dict, hget, hscale, np_add_col1, hlen]
    · have h1 : ((entry.kf_data.zip new).map (fun q => (q.1.1, q.1.2 + q.2.2))).map Prod.fst =
          (entry.kf_data.zip new).map (fun q => q.1.1) := by
        simp [List.map_map, Function.comp]
      have h2 : (entry.kf_data.zip new).map (fun q => q.1.1) =
          ((entry.kf_data.zip new).map Prod.fst).map Prod.fst := by
        simp [List.map_map, Function.comp]
      rw [h1, h2, List.map_fst_zip _ _ (le_of_eq hlen)]
  · intro hscale j hj
    have step : ∀ (d' : List (String × MotionEntry)) (a : ℕ),
        (match dictGet d' (fcurve_identifier dp a) with
          | some motion_data =>
            if !(strIn "scale" dp) then
              match np_add_col1 motion_data.kf_data new with
              | some added =>
                dictSet d' (fcurve_identifier dp a)
                  ⟨motion_data.data_path, motion_data.array_index, added⟩
              | none => d'
            else dictSet d' (fcurve_identifier dp a) ⟨dp, a, new⟩
          | none => dictSet d' (fcurve_identifier dp a) ⟨dp, a, new⟩) =
        dictSet d' (fcurve_identifier dp a) ⟨dp, a, new⟩ := by
      intro d' a
      cases dictGet d' (fcurve_identifier dp a) with
      | none => rfl
      | some m => simp [hscale]
    have hfold : populate_motion_data_dict dp [i] new true d =
        dictSet (dictSet (dictSet d (fcurve_identifier dp 0) ⟨dp, 0, new⟩)
          (fcurve_identifier dp 1) ⟨dp, 1, new⟩) (fcurve_identifier dp 2) ⟨dp, 2, new⟩ := by
      simp only [populate_motion_data_dict, if_true, List.foldl_cons, List.foldl_nil]
      rw [step, step, step]
    rw [hfold]
    have h01 : fcurve_identifier dp 0 ≠ fcurve_identifier dp 1 := by
      intro h; have := fcurve_identifier_inj dp 0 1 h; revert this; decide
    have h02 : fcurve_identifier dp 0 ≠ fcurve_identifier dp 2 := by
      intro h; have := fcurve_identifier_inj dp 0 2 h; revert this; decide
    have h12 : fcurve_identifier dp 1 ≠ fcurve_identifier dp 2 := by
      intro h; have := fcurve_identifier_inj dp 1 2 h; revert this; decide
    have hj' : j = 0 ∨ j = 1 ∨ j = 2 := by simpa using hj
    rcases hj' with rfl | rfl | rfl
    · rw [dictGet_dictSet_ne _ _ _ _ h02, dictGet_dictSet_ne _ _ _ _ h01,
        dictGet_dictSet_self]
    · rw [dictGet_dictSet_ne _ _ _ _ h12, dictGet_dictSet_self]
    · rw [dictGet_dictSet_self]

theorem populate_motion_data_dict_spec_witness :
    strIn "scale" "location" = false ∧
    dictGet [("location_0", (⟨"location", 0, [((1 : ℚ), (2 : ℚ))]⟩ : MotionEntry))]
      (fcurve_identifier "location" 0) = some ⟨"location", 0, [(1, 2)]⟩ ∧
    ([((1 : ℚ), (2 : ℚ))] : List (ℚ × ℚ)).length = ([((1 : ℚ), (5 : ℚ))] : List (ℚ × ℚ)).length ∧
    populate_motion_data_dict "location" [0] [(1, 5)] false
      [("location_0", ⟨"location", 0, [(1, 2)]⟩)] =
      [("location_0", ⟨"location", 0, [(1, 7)]⟩)] ∧
    strIn "scale" "pose.scale" = true ∧
    dictGet (populate_motion_data_dict "pose.scale" [0] [(1, 5)] true
        [("pose.scale_1", ⟨"pose.scale", 1, [(1, 9)]⟩)])
      (fcurve_identifier "pose.scale" 1) = some ⟨"pose.scale", 1, [(1, 5)]⟩ := by
  refine ⟨by decide, by decide, by decide, ?_, by decide, ?_⟩
  · have h := ((populate_motion_data_dict_spec "location" 0 [(1, 5)]
      [("location_0", ⟨"location", 0, [(1, 2)]⟩)]).1 ⟨"location", 0, [(1, 2)]⟩
      (by decide) (by decide) (by decide)).1
    rw [h]
    have hk : ("location_0" == fcurve_identifier "location" 0) = true := by decide
    simp [dictSet, hk]
    norm_num
  · exact (populate_motion_data_dict_spec "pose.scale" 0 [(1, 5)]
      [("pose.scale_1", ⟨"pose.scale", 1, [(1, 9)]⟩)]).2 (by decide) 1 (by decide)

/-- Claim C9 evaluation: the three guard cases (no ID, no animation data, no
action) return the empty list, but on a Blender 4.4+ host an ID with an
assigned action whose `action_slot` is None — or whose slot has no channel
bag — makes the source read the never-assigned local `fcurves`, raising
UnboundLocalError instead of returning a list; `get_fcurves_from_slot` with
its default `ensure=True` always returns an fcurve collection. -/
theorem get_active_animation_fcurves_raises :
    get_active_animation_fcurves_from_id env_4_4_no_bag none = .ok [] ∧
    get_active_animation_fcurves_from_id env_4_4_no_bag (some ⟨none⟩) = .ok [] ∧
    get_active_animation_fcurves_from_id env_4_4_no_bag
      (some ⟨some ⟨none, none⟩⟩) = .ok [] ∧
    get_active_animation_fcurves_from_id env_4_4_no_bag
      (some ⟨some ⟨some ⟨[⟨"location", 0⟩]⟩, none⟩⟩) = .error "UnboundLocalError" ∧
    get_active_animation_fcurves_from_id env_4_4_no_bag
      (some ⟨some ⟨some ⟨[⟨"location", 0⟩]⟩, some ⟨1⟩⟩⟩) = .error "UnboundLocalError" ∧
    (∀ (env : BlEnv) (action : BlAction) (slot : Option BlSlot),
      ∃ l, get_fcurves_from_slot env action slot true = .ok l) := by
  refine ⟨rfl, rfl, rfl, rfl, rfl, ?_⟩
  intro env action slot
  unfold get_fcurves_from_slot
  by_cases hv : env.version_ge_4_4
  · simp only [hv, if_true]
    cases env.action_get_channelbag_for_slot action slot with
    | none => exact ⟨_, rfl⟩
    | some cb => exact ⟨cb.fcurves, rfl⟩
  · simp only [hv, Bool.false_eq_true, if_false]
    exact ⟨action.fcurves, rfl⟩

theorem zero_frame_mem_append (n : ℕ) (z : ℤ) (hz : z ∈ zero_frames_finset n)
    (data : Option (List (ℚ × ℚ))) (default_i : ℚ) (fc : List ActionKF) :
    (⟨(z : ℚ), default_i, "LINEAR"⟩ : ActionKF) ∈
      append_action_channel_points data default_i (zero_frames_sorted n) fc := by
  have hz' : z ∈ zero_frames_sorted n := (Finset.mem_sort _).mpr hz
  cases data with
  | none =>
    show (⟨(z : ℚ), default_i, "LINEAR"⟩ : ActionKF) ∈
      (fc ++ ((zero_frames_sorted n).map (fun f : ℤ => ((f : ℚ), default_i))).map
        (fun p => (⟨p.1, p.2, "BEZIER"⟩ : ActionKF))).map
        (fun kf => (⟨kf.frame, kf.value, "LINEAR"⟩ : ActionKF))
    exact List.mem_map_of_mem (fun kf => (⟨kf.frame, kf.value, "LINEAR"⟩ : ActionKF))
      (List.mem_append.mpr (Or.inr
        (List.mem_map_of_mem (fun p => (⟨p.1, p.2, "BEZIER"⟩ : ActionKF))
          (List.mem_map_of_mem (fun f : ℤ => ((f : ℚ), default_i)) hz'))))
  | some d =>
    show (⟨(z : ℚ), default_i, "LINEAR"⟩ : ActionKF) ∈
      (fc ++ ((d ++ (zero_frames_sorted n).map (fun f : ℤ => ((f : ℚ), default_i))).map
        (fun p => (⟨p.1, p.2, "BEZIER"⟩ : ActionKF)))).map
        (fun kf => (⟨kf.frame, kf.value, "LINEAR"⟩ : ActionKF))
    exact List.mem_map_of_mem (fun kf => (⟨kf.frame, kf.value, "LINEAR"⟩ : ActionKF))
      (List.mem_append.mpr (Or.inr
        (List.mem_map_of_mem (fun p => (⟨p.1, p.2, "BEZIER"⟩ : ActionKF))
          (List.mem_append.mpr (Or.inr
            (List.mem_map_of_mem (fun f : ℤ => ((f : ℚ), default_i)) hz'))))))

/-- Claim C2: for every channel populated from a loaded preset with `n`
expressions, the produced fcurve holds a keyframe with the channel's default
value at both zero frames `(i+1)*10 + 1` and `(i+1)*10 - 9` for every
`i < n`, and every keyframe of the produced fcurve uses LINEAR
interpolation. -/
theorem append_action_zero_frames (n i : ℕ) (hi : i < n) (data : Option (List (ℚ × ℚ)))
    (default_i : ℚ) (fc : List ActionKF) :
    (⟨((i : ℚ) + 1) * 10 + 1, default_i, "LINEAR"⟩ : ActionKF) ∈
      append_action_channel_points data default_i (zero_frames_sorted n) fc ∧
    (⟨((i : ℚ) + 1) * 10 - 9, default_i, "LINEAR"⟩ : ActionKF) ∈
      append_action_channel_points data default_i (zero_frames_sorted n) fc ∧
    (append_action_channel_points data default_i (zero_frames_sorted n) fc).all
      (fun kf => kf.interpolation == "LINEAR") = true := by
  refine ⟨?_, ?_, ?_⟩
  · have hz : ((i : ℤ) + 1) * 10 + 1 ∈ zero_frames_finset n :=
      Finset.mem_biUnion.mpr ⟨i, Finset.mem_range.mpr hi, by simp⟩
    have h := zero_frame_mem_append n _ hz data default_i fc
    have hcast : ((((i : ℤ) + 1) * 10 + 1 : ℤ) : ℚ) = ((i : ℚ) + 1) * 10 + 1 := by
      push_cast
      ring
    rwa [hcast] at h
  · have hz : ((i : ℤ) + 1) * 10 - 9 ∈ zero_frames_finset n :=
      Finset.mem_biUnion.mpr ⟨i, Finset.mem_range.mpr hi, by simp⟩
    have h := zero_frame_mem_append n _ hz data default_i fc
    have hcast : ((((i : ℤ) + 1) * 10 - 9 : ℤ) : ℚ) = ((i : ℚ) + 1) * 10 - 9 := by
      push_cast
      ring
    rwa [hcast] at h
  · rw [List.all_eq_true]
    intro kf hkf
    unfold append_action_channel_points at hkf
    obtain ⟨a, _, ha⟩ := List.mem_map.mp hkf
    subst ha
    rfl

theorem append_action_zero_frames_witness :
    0 < 1 ∧
    ((⟨11, 5, "LINEAR"⟩ : ActionKF) ∈
      append_action_channel_points none 5 (zero_frames_sorted 1) [] ∧
    (⟨1, 5, "LINEAR"⟩ : ActionKF) ∈
      append_action_channel_points none 5 (zero_frames_sorted 1) [] ∧
    (append_action_channel_points none 5 (zero_frames_sorted 1) []).all
      (fun kf => kf.interpolation == "LINEAR") = true) := by
  refine ⟨by decide, ?_⟩
  obtain ⟨h1, h2, h3⟩ := append_action_zero_frames 1 0 (by decide) none 5 []
  norm_num at h1 h2
  exact ⟨h1, h2, h3⟩

/-- Claim C7: the export loop skips fcurves whose data path contains "DEF-",
"MCH-" or "ORG-" on Rigify rigs, or "influence", or "mouth_lock"; for any
other fcurve it keeps exactly the keyframes whose frame is a multiple of 10
and whose value differs from the channel's rest value (1.0 where the data
path contains "scale", or "rotation_quaternion" with array index 0; 0.0
otherwise), omitting the fcurve when nothing is left; the action dictionary
stores the kept keyframes under the data path and array index. -/
theorem export_expressions_to_json_spec (rig_type : String) (fc : ExpFCurve) :
    (((rig_type = "RIGIFY" ∨ rig_type = "RIGIFY_NEW") ∧
        (strIn "DEF-" fc.data_path = true ∨ strIn "MCH-" fc.data_path = true ∨
          strIn "ORG-" fc.data_path = true)) →
      export_process_fcurve rig_type fc = none) ∧
    (strIn "influence" fc.data_path = true → export_process_fcurve rig_type fc = none) ∧
    (strIn "mouth_lock" fc.data_path = true → export_process_fcurve rig_type fc = none) ∧
    (¬((rig_type = "RIGIFY" ∨ rig_type = "RIGIFY_NEW") ∧
        (strIn "DEF-" fc.data_path = true ∨ strIn "MCH-" fc.data_path = true ∨
          strIn "ORG-" fc.data_path = true)) →
      strIn "influence" fc.data_path = false →
      strIn "mouth_lock" fc.data_path = false →
      export_process_fcurve rig_type fc =
        (if (fc.kf_data.filter (fun p => pymod p.1 10 == 0 &&
              !(p.2 == export_rest_value fc.data_path fc.array_index))).isEmpty
          then none
          else some (fc.kf_data.filter (fun p => pymod p.1 10 == 0 &&
              !(p.2 == export_rest_value fc.data_path fc.array_index))))) ∧
    (export_action_dict rig_type [fc] =
      match export_process_fcurve rig_type fc with
      | none => []
      | some kept => [(fc.data_path, [(fc.array_index, kept)])]) := by
  refine ⟨?_, ?_, ?_, ?_, ?_⟩
  · rintro ⟨h1, h2⟩
    have hb : ((rig_type == "RIGIFY" || rig_type == "RIGIFY_NEW") &&
        (strIn "DEF-" fc.data_path || strIn "MCH-" fc.data_path ||
          strIn "ORG-" fc.data_path)) = true := by
      rcases h1 with h1 | h1 <;> rcases h2 with h2 | h2 | h2 <;> simp [h1, h2]
    simp [export_process_fcurve, hb]
  · intro h
    simp [export_process_fcurve, h, ite_self]
  · intro h
    simp [export_process_fcurve, h, ite_self]
  · intro h hinf hml
    have hb : ((rig_type == "RIGIFY" || rig_type == "RIGIFY_NEW") &&
        (strIn "DEF-" fc.data_path || strIn "MCH-" fc.data_path ||
          strIn "ORG-" fc.data_path)) = false := by
      by_contra hc
      rw [Bool.not_eq_false] at hc
      simp only [Bool.and_eq_true, Bool.or_eq_true, beq_iff_eq] at hc
      exact h ⟨hc.1, by tauto⟩
    have hpred : ∀ q : ℚ, ∀ a : ℚ × ℚ,
        (!(a.2 == q) && !(pymod a.1 10 != 0)) =
          (pymod a.1 10 == 0 && !(a.2 == q)) := by
      intro q a
      cases h1 : (pymod a.1 10 == 0) <;> cases h2 : (a.2 == q) <;> simp [bne, h1, h2]
    simp only [export_process_fcurve, hb, Bool.false_eq_true, if_false, hinf, hml]
    by_cases hc : export_rest_cond fc.data_path fc.array_index
    · simp only [export_rest_value, hc, if_true, List.filter_filter]
      rw [List.filter_congr (fun a _ => hpred 1 a)]
    · simp only [export_rest_value, hc, Bool.false_eq_true, if_false, List.filter_filter]
      rw [List.filter_congr (fun a _ => hpred 0 a)]
  · cases hp : export_process_fcurve rig_type fc with
    | none => simp [export_action_dict, hp]
    | some kept => simp [export_action_dict, hp, dictGet, dictSet, List.lookup]

theorem export_expressions_to_json_spec_witness :
    ¬((("RIGIFY" : String) = "RIGIFY" ∨ ("RIGIFY" : String) = "RIGIFY_NEW") ∧
        (strIn "DEF-" "location" = true ∨ strIn "MCH-" "location" = true ∨
          strIn "ORG-" "location" = true)) ∧
    strIn "influence" "location" = false ∧
    strIn "mouth_lock" "location" = false ∧
    export_process_fcurve "RIGIFY" ⟨"location", 0, [(10, 5), (11, 5), (20, 0)]⟩ =
      some [(10, 5)] := by
  refine ⟨by decide, by decide, by decide, ?_⟩
  have h := (export_expressions_to_json_spec "RIGIFY"
      ⟨"location", 0, [(10, 5), (11, 5), (20, 0)]⟩).2.2.2.1
    (by decide) (by decide) (by decide)
  rw [h]
  have hrest : export_rest_value "location" 0 = 0 := by
    simp [export_rest_value, show export_rest_cond "location" 0 = false from by decide]
  have e10 : (pymod 10 10 == (0 : ℚ)) = true := by
    rw [beq_iff_eq]
    norm_num [pymod]
  have e11 : (pymod 11 10 == (0 : ℚ)) = false := by
    rw [beq_eq_false_iff_ne]
    norm_num [pymod]
  have e20 : (pymod 20 10 == (0 : ℚ)) = true := by
    rw [beq_iff_eq]
    norm_num [pymod]
  have v5 : ((5 : ℚ) == 0) = false := by
    rw [beq_eq_false_iff_ne]
    norm_num
  have v0 : ((0 : ℚ) == 0) = true := by
    rw [beq_iff_eq]
  simp [List.filter, hrest, e10, e11, e20, v5, v0]

/-- Claim C4 evaluation (code bug): a quaternion channel whose stored sample
has value 0.0 is treated as missing.  With source data holding the sample
(frame 10, value 0) for channel 0 and quaternion defaults [1, 0, 0, 0], the
per-frame dict does store the channel-0 sample with value 0, yet
`reconstruct_rot_value` emits the default 1 for that channel (`if val:` is
false for 0.0), so the converted animation keyframes channel 0 at value 1
where the loaded animation said 0. -/
theorem rotation_fill_treats_zero_as_missing :
    build_frames_dict [("0", [(10, 0)])] = [(10, [(0, 0)])] ∧
    dictGet [((0 : ℕ), (0 : ℚ))] 0 = some 0 ∧
    reconstruct_rot_value 4 [1, 0, 0, 0] [(0, 0)] = [1, 0, 0, 0] ∧
    convert_rotation_animation id 4 [1, 0, 0, 0] [("0", [(10, 0)])] =
      [("0", [(10, 1)]), ("1", [(10, 0)]), ("2", [(10, 0)]), ("3", [(10, 0)])] := by
  refine ⟨by decide, by decide, by decide, by decide⟩

theorem foldl_min_le (xs : List ℚ) : ∀ x : ℚ, xs.foldl min x ≤ x := by
  induction xs with
  | nil => intro x; exact le_refl x
  | cons y ys ih => intro x; exact le_trans (ih (min x y)) (min_le_left x y)

theorem le_foldl_max (xs : List ℚ) : ∀ x : ℚ, x ≤ xs.foldl max x := by
  induction xs with
  | nil => intro x; exact le_refl x
  | cons y ys ih => intro x; exact le_trans (le_max_left x y) (ih (max x y))

theorem listMin_le_listMax (l : List ℚ) (h : l ≠ []) : listMin l ≤ listMax l := by
  cases l with
  | nil => exact absurd rfl h
  | cons x xs =>
    exact le_trans (foldl_min_le xs x) (le_foldl_max xs x)

theorem get_import_rig_dimensions_nonneg (vals : List (ℚ × ℚ × ℚ)) (h : vals ≠ []) :
    ∀ d ∈ get_import_rig_dimensions vals, 0 ≤ d := by
  have hmap : ∀ f : ℚ × ℚ × ℚ → ℚ, vals.map f ≠ [] := by
    intro f hf
    exact h (List.map_eq_nil_iff.mp hf)
  intro d hd
  unfold get_import_rig_dimensions at hd
  simp only [List.mem_cons, List.not_mem_nil, or_false] at hd
  rcases hd with rfl | rfl | rfl
  · exact sub_nonneg.mpr (listMin_le_listMax _ (hmap _))
  · exact sub_nonneg.mpr (listMin_le_listMax _ (hmap _))
  · exact sub_nonneg.mpr (listMin_le_listMax _ (hmap _))

/-- Claim C5 counterexample: with imported dimensions [0, 0, 5] (two zero
axes), the fill step replaces only the FIRST zero axis — the second stays 0 —
and the scale computation then divides by zero (Python raises
ZeroDivisionError), while the claim says every zero axis is replaced by the
average of the other dimensions. -/
theorem auto_scale_first_zero_only_counterexample :
    get_import_rig_dimensions [(0, 0, 0), (0, 0, 5)] = [0, 0, 5] ∧
    fill_zero_dims [0, 0, 5] = some [5, 0, 5] ∧
    auto_action_scale [(0, 0, 0), (1, 1, 1)] [(0, 0, 0), (0, 0, 5)] = none := by
  have himp : get_import_rig_dimensions [((0 : ℚ), (0 : ℚ), (0 : ℚ)), (0, 0, 5)] =
      [0, 0, 5] := by
    simp [get_import_rig_dimensions, listMax, listMin]
  have hcnt : (([0, 0, 5] : List ℚ).count 0) = 2 := by decide
  have hidx : pyIndex 0 [0, 0, 5] = 0 := by decide
  have hfill : fill_zero_dims [0, 0, 5] = some [5, 0, 5] := by
    simp only [fill_zero_dims, hcnt, hidx]
    norm_num
  have hrig : get_rig_dimensions [((0 : ℚ), (0 : ℚ), (0 : ℚ)), (1, 1, 1)] = [1, 1, 1] := by
    simp [get_rig_dimensions, listMax, listMin]
  refine ⟨himp, hfill, ?_⟩
  simp only [auto_action_scale, himp, hfill, hrig]
  norm_num [pyDiv]

theorem count_zero_triple (a b c : ℚ) :
    ([a, b, c] : List ℚ).count 0 =
      (if a = 0 then 1 else 0) + ((if b = 0 then 1 else 0) + (if c = 0 then 1 else 0)) := by
  by_cases ha : a = 0 <;> by_cases hb : b = 0 <;> by_cases hc : c = 0 <;>
    simp [List.count_cons, ha, hb, hc]

/-- Claim C5 (amended): under scale method AUTO with at least one shared
dimension-check bone, when AT MOST ONE imported dimension is 0, the per-axis
factor is the rig dimension divided by the imported dimension with the single
zero axis replaced by the average of the other two (`spec_filled_dims`), and
the scaling step is skipped when all three factors equal 1.  (With two or
more zero axes only the first is replaced — see the counterexample — and the
scale computation divides by zero.) -/
theorem auto_action_scale_spec (rig_vals rest_vals : List (ℚ × ℚ × ℚ))
    (a b c r0 r1 r2 : ℚ)
    (hvals : rest_vals ≠ [])
    (himport : get_import_rig_dimensions rest_vals = [a, b, c])
    (hrig : get_rig_dimensions rig_vals = [r0, r1, r2])
    (hcount : ([a, b, c] : List ℚ).count 0 ≤ 1) :
    fill_zero_dims [a, b, c] = some (spec_filled_dims a b c) ∧
    auto_action_scale rig_vals rest_vals =
      some [r0 / (spec_filled_dims a b c).getD 0 0,
            r1 / (spec_filled_dims a b c).getD 1 0,
            r2 / (spec_filled_dims a b c).getD 2 0] ∧
    (∀ s : List ℚ, s.all (fun x => x == 1) = true → should_scale s = false) := by
  have hnn := get_import_rig_dimensions_nonneg rest_vals hvals
  rw [himport] at hnn
  have ha0 : 0 ≤ a := hnn a (by simp)
  have hb0 : 0 ≤ b := hnn b (by simp)
  have hc0 : 0 ≤ c := hnn c (by simp)
  have hskip : ∀ s : List ℚ, s.all (fun x => x == 1) = true → should_scale s = false := by
    intro s hs
    simp [should_scale, hs]
  rw [count_zero_triple] at hcount
  by_cases ha : a = 0 <;> by_cases hb : b = 0 <;> by_cases hc : c = 0
  · simp [ha, hb, hc] at hcount
  · simp [ha, hb, hc] at hcount
  · simp [ha, hb, hc] at hcount
  · -- only a = 0
    subst ha
    have hb' : 0 < b := lt_of_le_of_ne hb0 (Ne.symm hb)
    have hc' : 0 < c := lt_of_le_of_ne hc0 (Ne.symm hc)
    have hbc : b + c ≠ 0 := ne_of_gt (add_pos hb' hc')
    have hcnt : (([0, b, c] : List ℚ).count 0) = 1 := by
      rw [count_zero_triple]
      simp [hb, hc]
    have hfill : fill_zero_dims [0, b, c] = some (spec_filled_dims 0 b c) := by
      simp only [fill_zero_dims, hcnt, pyIndex]
      norm_num [spec_filled_dims, hb, hc]
    have hf0 : (b + c) / 2 ≠ 0 := by
      intro hz
      exact hbc (by linarith [div_eq_zero_iff.mp hz])
    refine ⟨hfill, ?_, hskip⟩
    simp only [auto_action_scale, himport, hfill, hrig, spec_filled_dims]
    norm_num [pyDiv, hb, hc, hf0]
  · simp [ha, hb, hc] at hcount
  · -- only b = 0
    subst hb
    have ha' : 0 < a := lt_of_le_of_ne ha0 (Ne.symm ha)
    have hc' : 0 < c := lt_of_le_of_ne hc0 (Ne.symm hc)
    have hac : a + c ≠ 0 := ne_of_gt (add_pos ha' hc')
    have hcnt : (([a, 0, c] : List ℚ).count 0) = 1 := by
      rw [count_zero_triple]
      simp [ha, hc]
    have hfill : fill_zero_dims [a, 0, c] = some (spec_filled_dims a 0 c) := by
      simp only [fill_zero_dims, hcnt, pyIndex]
      norm_num [spec_filled_dims, ha, hc, beq_eq_false_iff_ne.mpr ha]
    have hf1 : (a + c) / 2 ≠ 0 := by
      intro hz
      exact hac (by linarith [div_eq_zero_iff.mp hz])
    refine ⟨hfill, ?_, hskip⟩
    simp only [auto_action_scale, himport, hfill, hrig, spec_filled_dims]
    norm_num [pyDiv, ha, hc, hf1]
  · -- only c = 0
    subst hc
    have ha' : 0 < a := lt_of_le_of_ne ha0 (Ne.symm ha)
    have hb' : 0 < b := lt_of_le_of_ne hb0 (Ne.symm hb)
    have hab : a + b ≠ 0 := ne_of_gt (add_pos ha' hb')
    have hcnt : (([a, b, 0] : List ℚ).count 0) = 1 := by
      rw [count_zero_triple]
      simp [ha, hb]
    have hfill : fill_zero_dims [a, b, 0] = some (spec_filled_dims a b 0) := by
      simp only [fill_zero_dims, hcnt, pyIndex]
      norm_num [spec_filled_dims, ha, hb, beq_eq_false_iff_ne.mpr ha,
        beq_eq_false_iff_ne.mpr hb]
    have hf2 : (a + b) / 2 ≠ 0 := by
      intro hz
      exact hab (by linarith [div_eq_zero_iff.mp hz])
    refine ⟨hfill, ?_, hskip⟩
    simp only [auto_action_scale, himport, hfill, hrig, spec_filled_dims]
    norm_num [pyDiv, ha, hb, hf2]
  · -- no zero dimension
    have hcnt : (([a, b, c] : List ℚ).count 0) = 0 := by
      rw [count_zero_triple]
      simp [ha, hb, hc]
    have hfill : fill_zero_dims [a, b, c] = some (spec_filled_dims a b c) := by
      simp only [fill_zero_dims, hcnt]
      norm_num [spec_filled_dims, ha, hb, hc]
    refine ⟨hfill, ?_, hskip⟩
    simp only [auto_action_scale, himport, hfill, hrig, spec_filled_dims]
    norm_num [pyDiv, ha, hb, hc]

theorem auto_action_scale_spec_witness :
    ([((0 : ℚ), (0 : ℚ), (0 : ℚ)), ((2 : ℚ), (0 : ℚ), (4 : ℚ))] : List (ℚ × ℚ × ℚ)) ≠ [] ∧
    get_import_rig_dimensions [(0, 0, 0), (2, 0, 4)] = [2, 0, 4] ∧
    get_rig_dimensions [(0, 0, 0), (1, 1, 1)] = [1, 1, 1] ∧
    (([2, 0, 4] : List ℚ).count 0 ≤ 1) ∧
    fill_zero_dims [2, 0, 4] = some (spec_filled_dims 2 0 4) ∧
    auto_action_scale [(0, 0, 0), (1, 1, 1)] [(0, 0, 0), (2, 0, 4)] =
      some [1 / (spec_filled_dims 2 0 4).getD 0 0,
            1 / (spec_filled_dims 2 0 4).getD 1 0,
            1 / (spec_filled_dims 2 0 4).getD 2 0] ∧
    should_scale [1, 1, 1] = false := by
  have h1 : ([((0 : ℚ), (0 : ℚ), (0 : ℚ)), ((2 : ℚ), (0 : ℚ), (4 : ℚ))] :
      List (ℚ × ℚ × ℚ)) ≠ [] := by simp
  have h2 : get_import_rig_dimensions [((0 : ℚ), (0 : ℚ), (0 : ℚ)), (2, 0, 4)] =
      [2, 0, 4] := by
    simp [get_import_rig_dimensions, listMax, listMin]
  have h3 : get_rig_dimensions [((0 : ℚ), (0 : ℚ), (0 : ℚ)), (1, 1, 1)] = [1, 1, 1] := by
    simp [get_rig_dimensions, listMax, listMin]
  have h4 : (([2, 0, 4] : List ℚ).count 0 ≤ 1) := by decide
  obtain ⟨w1, w2, w3⟩ := auto_action_scale_spec [(0, 0, 0), (1, 1, 1)]
    [(0, 0, 0), (2, 0, 4)] 2 0 4 1 1 1 h1 h2 h3 h4
  exact ⟨h1, h2, h3, h4, w1, w2, w3 [1, 1, 1] (by decide)⟩

theorem set_append_cons_self {α : Type} (u w : List α) (a x : α) :
    (u ++ a :: w).set u.length x = u ++ x :: w := by
  induction u with
  | nil => rfl
  | cons y ys ih => simp [List.set, ih]

theorem set_append_cons_cons {α : Type} (u w : List α) (a b x : α) :
    (u ++ a :: b :: w).set (u.length + 1) x = u ++ a :: x :: w := by
  induction u with
  | nil => rfl
  | cons y ys ih => simp [List.set, ih]

theorem eraseIdx_append_cons_cons {α : Type} (u w : List α) (a b : α) :
    (u ++ a :: b :: w).eraseIdx (u.length + 1) = u ++ a :: w := by
  induction u with
  | nil => rfl
  | cons y ys ih => simpa [List.eraseIdx] using ih

theorem insertIdx_append_cons {α : Type} (u w : List α) (x : α) :
    (u ++ w).insertIdx u.length x = u ++ x :: w := by
  induction u with
  | nil => rfl
  | cons y ys ih => simpa [List.insertIdx_succ_cons] using ih

theorem getElem?_append_cons_self {α : Type} (u w : List α) (a : α) :
    (u ++ a :: w)[u.length]? = some a := by
  rw [List.getElem?_append_right (le_refl _)]
  simp

theorem getElem?_append_cons_cons {α : Type} (u w : List α) (a b : α) :
    (u ++ a :: b :: w)[u.length + 1]? = some b := by
  rw [List.getElem?_append_right (Nat.le_succ _)]
  simp

theorem exists_two_split {α : Type} (i : ℕ) : ∀ l : List α, i + 1 < l.length →
    ∃ u a b v, l = u ++ a :: b :: v ∧ u.length = i := by
  induction i with
  | zero =>
    intro l h
    match l, h with
    | a :: b :: v, _ => exact ⟨[], a, b, v, rfl, rfl⟩
  | succ n ih =>
    intro l h
    match l, h with
    | x :: xs, h =>
      obtain ⟨u, a, b, v, heq, hlen⟩ := ih xs (by simpa using h)
      exact ⟨x :: u, a, b, v, by rw [heq]; rfl, by simp [hlen]⟩

theorem add_expression_item_eq (l : List ExpItem) (name : String) :
    add_expression_item l name = l ++ [⟨name, ((l.length : ℚ) + 1) * 10⟩] := rfl

theorem add_expression_item_invariant (l : List ExpItem) (name : String)
    (hinv : frames_invariant l) : frames_invariant (add_expression_item l name) := by
  intro k hk
  rw [add_expression_item_eq] at hk ⊢
  simp only [List.length_append, List.length_cons, List.length_nil] at hk
  rw [List.getD_eq_getElem?_getD]
  by_cases hkl : k < l.length
  · rw [List.getElem?_append]
    simp only [hkl, if_true]
    rw [← List.getD_eq_getElem?_getD]
    exact hinv k hkl
  · have hkeq : k = l.length := by omega
    subst hkeq
    rw [List.getElem?_concat_length]
    rfl

theorem remove_expression_curve_eq (frame : ℚ) (kfs : List (ℚ × ℚ)) :
    remove_expression_curve frame kfs = kfs.filterMap (fun key =>
      if key.1 = frame then none
      else if key.1 > frame then some (key.1 - 10, key.2) else some key) := by
  induction kfs with
  | nil => rfl
  | cons p ps ih =>
    by_cases h1 : p.1 = frame
    · simpa [remove_expression_curve, List.filterMap_cons, h1] using ih
    · by_cases h2 : p.1 > frame <;>
        simpa [remove_expression_curve, List.filterMap_cons, h1,
          beq_eq_false_iff_ne.mpr h1, h2] using ih

theorem getElem?_eq_some_getD (l : List ExpItem) (j : ℕ) (hj : j < l.length) :
    l[j]? = some (l.getD j ⟨"", 0⟩) := by
  rw [List.getD_eq_getElem?_getD, List.getElem?_eq_getElem hj]
  rfl

theorem remove_expression_item_invariant (l : List ExpItem) (item_index : ℕ)
    (hinv : frames_invariant l) (hidx : item_index < l.length) :
    frames_invariant (remove_expression_item l item_index) := by
  intro k hk
  have hframe : (l.getD item_index ⟨"", 0⟩).frame = ((item_index : ℚ) + 1) * 10 :=
    hinv item_index hidx
  unfold remove_expression_item
  unfold remove_expression_item at hk
  simp only [List.length_map, List.length_eraseIdx, hidx, if_true] at hk
  rw [List.getD_eq_getElem?_getD, List.getElem?_map, List.getElem?_eraseIdx]
  by_cases hki : k < item_index
  · have hkl : k < l.length := by omega
    rw [if_pos hki, getElem?_eq_some_getD l k hkl]
    simp only [Option.map_some', Option.getD_some]
    have hcond : ¬ ((l.getD k ⟨"", 0⟩).frame > (l.getD item_index ⟨"", 0⟩).frame) := by
      rw [hframe, hinv k hkl]
      have hcast : (k : ℚ) < (item_index : ℚ) := by exact_mod_cast hki
      intro hgt
      nlinarith
    rw [if_neg hcond]
    exact hinv k hkl
  · have hkl : k + 1 < l.length := by omega
    rw [if_neg hki, getElem?_eq_some_getD l (k + 1) hkl]
    simp only [Option.map_some', Option.getD_some]
    have hcond : (l.getD (k + 1) ⟨"", 0⟩).frame > (l.getD item_index ⟨"", 0⟩).frame := by
      rw [hframe, hinv (k + 1) hkl]
      have hcast : (item_index : ℚ) ≤ (k : ℚ) := by exact_mod_cast Nat.le_of_not_lt hki
      push_cast
      nlinarith
    rw [if_pos hcond]
    simp only
    rw [hinv (k + 1) hkl]
    push_cast
    ring

theorem move_swap_curve_eq (e n add : ℚ) (kfs : List (ℚ × ℚ))
    (hadj : n = e + add) (hadd : add ≠ 0)
    (hfree : ∀ p ∈ kfs, p.1 ≠ n - add / 2) :
    move_swap_curve e n add kfs = kfs.map (fun p =>
      if p.1 = e then (n, p.2) else if p.1 = n then (e, p.2) else p) := by
  unfold move_swap_curve
  simp only [List.map_map]
  apply List.map_congr_left
  intro p hp
  have hp' := hfree p hp
  have hne_en : e ≠ n := by
    rw [hadj]
    intro hcontra
    apply hadd
    linarith
  simp only [Function.comp, beq_iff_eq]
  by_cases h1 : p.1 = e
  · have c1 : ¬ (p.1 = n) := by
      rw [h1]
      exact hne_en
    rw [if_neg c1, if_pos h1]
    have c3 : ¬ (p.1 + add = n - add / 2) := by
      rw [h1, ← hadj]
      intro hcontra
      apply hadd
      linarith
    simp only [if_neg c3, if_pos h1]
    rw [h1, ← hadj]
  · by_cases h2 : p.1 = n
    · rw [if_pos h2]
      have c2 : ¬ (p.1 - add / 2 = e) := by
        rw [h2, hadj]
        intro hcontra
        apply hadd
        linarith
      simp only [if_neg c2]
      have c3 : p.1 - add / 2 = n - add / 2 := by rw [h2]
      simp only [if_pos c3, if_neg h1, if_pos h2, Prod.mk.injEq]
      refine ⟨?_, trivial⟩
      rw [h2, hadj]
      ring
    · rw [if_neg h2, if_neg h1]
      simp only [if_neg hp', if_neg h1, if_neg h2]

theorem move_expression_items_adjacent (l : List ExpItem) (index : ℕ)
    (h : index + 1 < l.length) :
    move_expression_items l index (index + 1) =
      (l.set index ⟨(l.getD (index + 1) ⟨"", 0⟩).name, (l.getD index ⟨"", 0⟩).frame⟩).set
        (index + 1) ⟨(l.getD index ⟨"", 0⟩).name, (l.getD (index + 1) ⟨"", 0⟩).frame⟩ := by
  obtain ⟨u, a, b, v, rfl, hlen⟩ := exists_two_split index l h
  subst hlen
  have hga : (u ++ a :: b :: v).getD u.length ⟨"", 0⟩ = a := by
    rw [List.getD_eq_getElem?_getD, getElem?_append_cons_self]
    rfl
  have hgb : (u ++ a :: b :: v).getD (u.length + 1) ⟨"", 0⟩ = b := by
    rw [List.getD_eq_getElem?_getD, getElem?_append_cons_cons]
    rfl
  simp only [move_expression_items, collection_move, hga, hgb, set_append_cons_self,
    set_append_cons_cons, getElem?_append_cons_cons, eraseIdx_append_cons_cons,
    insertIdx_append_cons]

theorem move_expression_items_invariant (l : List ExpItem) (index : ℕ)
    (h : index + 1 < l.length) (hinv : frames_invariant l) :
    frames_invariant (move_expression_items l index (index + 1)) := by
  rw [move_expression_items_adjacent l index h]
  intro k hk
  simp only [List.length_set] at hk
  rw [List.getD_eq_getElem?_getD, List.getElem?_set, List.getElem?_set]
  by_cases h2 : index + 1 = k
  · subst h2
    have hlt : index + 1 < (l.set index
        ⟨(l.getD (index + 1) ⟨"", 0⟩).name, (l.getD index ⟨"", 0⟩).frame⟩).length := by
      simp only [List.length_set]
      omega
    simp only [eq_self_iff_true, if_true, hlt, Option.getD_some]
    rw [hinv (index + 1) (by omega)]
  · rw [if_neg h2]
    by_cases h1 : index = k
    · subst h1
      have hlt : index < l.length := by omega
      simp only [eq_self_iff_true, if_true, hlt, Option.getD_some]
      exact hinv index hlt
    · rw [if_neg h1, ← List.getD_eq_getElem?_getD]
      exact hinv k hk

/-- Claim C10: the expression list keeps the invariant that the item at
position k has frame (k+1)*10.  Adding appends an item with frame
(length+1)*10 and preserves the invariant; removing deletes the item's
keyframes, shifts keyframes and remaining item frames beyond the removed
frame back by 10, and preserves the invariant; moving swaps the frames of
the two adjacent items (and, under the half-frame passes, exactly the
keyframes at those two frames) and preserves the invariant. -/
theorem expression_list_frame_ops (l : List ExpItem) (name : String)
    (item_index index : ℕ) (kfs : List (ℚ × ℚ)) (frame e n add : ℚ) :
    add_expression_item l name = l ++ [⟨name, ((l.length : ℚ) + 1) * 10⟩] ∧
    (frames_invariant l → frames_invariant (add_expression_item l name)) ∧
    remove_expression_curve frame kfs = kfs.filterMap (fun key =>
      if key.1 = frame then none
      else if key.1 > frame then some (key.1 - 10, key.2) else some key) ∧
    (frames_invariant l → item_index < l.length →
      frames_invariant (remove_expression_item l item_index)) ∧
    (n = e + add → add ≠ 0 → (∀ p ∈ kfs, p.1 ≠ n - add / 2) →
      move_swap_curve e n add kfs = kfs.map (fun p =>
        if p.1 = e then (n, p.2) else if p.1 = n then (e, p.2) else p)) ∧
    (index + 1 < l.length →
      move_expression_items l index (index + 1) =
        (l.set index ⟨(l.getD (index + 1) ⟨"", 0⟩).name,
          (l.getD index ⟨"", 0⟩).frame⟩).set
          (index + 1) ⟨(l.getD index ⟨"", 0⟩).name,
            (l.getD (index + 1) ⟨"", 0⟩).frame⟩) ∧
    (index + 1 < l.length → frames_invariant l →
      frames_invariant (move_expression_items l index (index + 1))) :=
  ⟨add_expression_item_eq l name,
   fun hinv => add_expression_item_invariant l name hinv,
   remove_expression_curve_eq frame kfs,
   fun hinv hidx => remove_expression_item_invariant l item_index hinv hidx,
   fun h1 h2 h3 => move_swap_curve_eq e n add kfs h1 h2 h3,
   fun h => move_expression_items_adjacent l index h,
   fun h hinv => move_expression_items_invariant l index h hinv⟩

theorem expression_list_frame_ops_witness :
    add_expression_item [⟨"a", 10⟩, ⟨"b", 20⟩] "c" =
      [⟨"a", 10⟩, ⟨"b", 20⟩, ⟨"c", 30⟩] ∧
    remove_expression_curve 10 [(10, 1), (20, 2)] = [(10, 2)] ∧
    move_swap_curve 10 20 10 [(10, 1), (20, 2)] = [(20, 1), (10, 2)] ∧
    move_expression_items [⟨"a", 10⟩, ⟨"b", 20⟩] 0 1 = [⟨"b", 10⟩, ⟨"a", 20⟩] ∧
    ((move_expression_items [⟨"a", 10⟩, ⟨"b", 20⟩] 0 1).getD 0 ⟨"", 0⟩).frame = 10 := by
  have h := expression_list_frame_ops [⟨"a", 10⟩, ⟨"b", 20⟩] "c" 0 0
    [(10, 1), (20, 2)] 10 10 20 10
  have hinv : frames_invariant [⟨"a", 10⟩, ⟨"b", 20⟩] := by
    intro k hk
    simp only [List.length_cons, List.length_nil] at hk
    interval_cases k <;> norm_num [List.getD]
  have hmove : move_expression_items [⟨"a", 10⟩, ⟨"b", 20⟩] 0 1 =
      [⟨"b", 10⟩, ⟨"a", 20⟩] := by
    have hm := h.2.2.2.2.2.1 (by norm_num)
    rw [hm]
    decide
  refine ⟨?_, ?_, ?_, hmove, ?_⟩
  · rw [h.1]
    norm_num
  · rw [h.2.2.1]
    norm_num [List.filterMap]
  · have hs := h.2.2.2.2.1 (by norm_num) (by norm_num) (by
      intro p hp
      simp only [List.mem_cons, List.not_mem_nil, or_false] at hp
      rcases hp with rfl | rfl <;> norm_num)
    rw [hs]
    have c1 : ((10 : ℚ) = 10) = True := by norm_num
    have c2 : ((20 : ℚ) = 10) = False := by norm_num
    have c3 : ((20 : ℚ) = 20) = True := by norm_num
    simp [c1, c2, c3]
  · have happ := h.2.2.2.2.2.2 (by norm_num) hinv 0 (by rw [hmove]; norm_num)
    rw [hmove] at happ
    norm_num [List.getD] at happ
    rw [hmove]
    norm_num [List.getD]

theorem hasSubstr_append_self (p k : List Char) : hasSubstr k (p ++ k) = true := by
  induction p with
  | nil =>
    cases k with
    | nil => rfl
    | cons c r =>
      show ((c :: r).isPrefixOf (c :: r) || hasSubstr (c :: r) r) = true
      rw [List.isPrefixOf_iff_prefix.mpr (List.prefix_refl _)]
      rfl
  | cons c p' ih =>
    show (_ || hasSubstr k (p' ++ k)) = true
    rw [ih]
    simp

theorem hasSubstr_ne_nil (k s : List Char) (h : hasSubstr k s = true) (hk : k ≠ []) :
    s ≠ [] := by
  intro hs
  subst hs
  exact hk (by simpa [hasSubstr, List.isEmpty_iff] using h)

theorem isSuffixOf_ne_nil (k s : List Char) (h : k.isSuffixOf s = true) (hk : k ≠ []) :
    s ≠ [] := by
  intro hs
  subst hs
  rw [List.isSuffixOf_iff_suffix] at h
  have hlen := h.length_le
  simp only [List.length_nil, Nat.le_zero] at hlen
  exact hk (List.eq_nil_of_length_eq_zero hlen)

theorem replaceAllFuel_nil (k v : List Char) (fuel : ℕ) :
    replaceAllFuel k v fuel [] = [] := by
  cases fuel <;> rfl

theorem replaceAllFuel_ne_nil (k v : List Char) (fuel : ℕ) (s : List Char)
    (hv : v ≠ []) (hs : s ≠ []) : replaceAllFuel k v fuel s ≠ [] := by
  cases fuel with
  | zero => exact hs
  | succ f =>
    cases s with
    | nil => exact absurd rfl hs
    | cons c rest =>
      by_cases h : k ≠ [] ∧ k.isPrefixOf (c :: rest) = true
      · simp only [replaceAllFuel, if_pos h]
        intro hcontra
        exact hv (List.append_eq_nil.mp hcontra).1
      · simp only [replaceAllFuel, if_neg h]
        simp

theorem replaceAll_ne_nil (k v s : List Char) (hv : v ≠ []) (hs : s ≠ []) :
    replaceAll k v s ≠ [] :=
  replaceAllFuel_ne_nil k v s.length s hv hs

theorem replaceAllFuel_unique_end (k v : List Char) (hk : k ≠ []) :
    ∀ (p : List Char) (fuel : ℕ), (p ++ k).length ≤ fuel →
      (∀ i < p.length, ¬ (k.isPrefixOf ((p ++ k).drop i) = true)) →
      replaceAllFuel k v fuel (p ++ k) = p ++ v := by
  intro p
  induction p with
  | nil =>
    intro fuel hlen hocc
    cases fuel with
    | zero =>
      simp only [List.nil_append, List.length_nil, Nat.le_zero] at hlen
      exact absurd (List.eq_nil_of_length_eq_zero hlen) hk
    | succ f =>
      cases k with
      | nil => exact absurd rfl hk
      | cons kc kr =>
        show replaceAllFuel (kc :: kr) v (f + 1) (kc :: kr) = [] ++ v
        rw [replaceAllFuel]
        rw [if_pos ⟨hk, List.isPrefixOf_iff_prefix.mpr (List.prefix_refl _)⟩]
        rw [List.drop_length, replaceAllFuel_nil]
        simp
  | cons c p' ih =>
    intro fuel hlen hocc
    cases fuel with
    | zero =>
      simp at hlen
    | succ f =>
      show replaceAllFuel k v (f + 1) (c :: (p' ++ k)) = (c :: p') ++ v
      rw [replaceAllFuel]
      have hpre : ¬ (k.isPrefixOf (c :: (p' ++ k)) = true) := by
        have h0 := hocc 0 (by simp)
        simpa using h0
      rw [if_neg (fun hand => hpre hand.2)]
      have hih := ih f (by simpa using hlen) (fun i hi => by
        have hsh := hocc (i + 1) (by simpa using Nat.succ_lt_succ hi)
        simpa using hsh)
      rw [hih]
      rfl

theorem replaceAll_unique_end (k v p : List Char) (hk : k ≠ [])
    (hocc : ∀ i < p.length, ¬ (k.isPrefixOf ((p ++ k).drop i) = true)) :
    replaceAll k v (p ++ k) = p ++ v :=
  replaceAllFuel_unique_end k v hk p (p ++ k).length (le_refl _) hocc

theorem mirror_nonempty (name : List Char)
    (h : get_side name = 'L' ∨ get_side name = 'R') :
    get_mirror_name (get_side name) name ≠ [] := by
  by_cases c1 : hasSubstr "left".data name = true
  · have hside : get_side name = 'L' := by
      simp [get_side, get_mirror_name, findReplaceDict, findReplaceEnd, mirror_sides_dict_L, mirror_sides_end_L, mirror_sides_dict_R, mirror_sides_end_R, c1]
    have hmir : get_mirror_name 'L' name = replaceAll ("left".data) ("right".data) name := by
      simp [get_side, get_mirror_name, findReplaceDict, findReplaceEnd, mirror_sides_dict_L, mirror_sides_end_L, mirror_sides_dict_R, mirror_sides_end_R, c1]
    rw [hside, hmir]
    exact replaceAll_ne_nil _ _ _ (by decide) (hasSubstr_ne_nil _ _ c1 (by decide))
  ·
    by_cases c2 : hasSubstr "Left".data name = true
    · have hside : get_side name = 'L' := by
        simp [get_side, get_mirror_name, findReplaceDict, findReplaceEnd, mirror_sides_dict_L, mirror_sides_end_L, mirror_sides_dict_R, mirror_sides_end_R, c1, c2]
      have hmir : get_mirror_name 'L' name = replaceAll ("Left".data) ("Right".data) name := by
        simp [get_side, get_mirror_name, findReplaceDict, findReplaceEnd, mirror_sides_dict_L, mirror_sides_end_L, mirror_sides_dict_R, mirror_sides_end_R, c1, c2]
      rw [hside, hmir]
      exact replaceAll_ne_nil _ _ _ (by decide) (hasSubstr_ne_nil _ _ c2 (by decide))
    ·
      by_cases c3 : hasSubstr "LEFT".data name = true
      · have hside : get_side name = 'L' := by
          simp [get_side, get_mirror_name, findReplaceDict, findReplaceEnd, mirror_sides_dict_L, mirror_sides_end_L, mirror_sides_dict_R, mirror_sides_end_R, c1, c2, c3]
        have hmir : get_mirror_name 'L' name = replaceAll ("LEFT".data) ("RIGHT".data) name := by
          simp [get_side, get_mirror_name, findReplaceDict, findReplaceEnd, mirror_sides_dict_L, mirror_sides_end_L, mirror_sides_dict_R, mirror_sides_end_R, c1, c2, c3]
        rw [hside, hmir]
        exact replaceAll_ne_nil _ _ _ (by decide) (hasSubstr_ne_nil _ _ c3 (by decide))
      ·
        by_cases c4 : ("L".data).isSuffixOf name = true
        · have hside : get_side name = 'L' := by
            simp [get_side, get_mirror_name, findReplaceDict, findReplaceEnd, mirror_sides_dict_L, mirror_sides_end_L, mirror_sides_dict_R, mirror_sides_end_R, c1, c2, c3, c4]
          have hmir : get_mirror_name 'L' name = replaceAll ("L".data) ("R".data) name := by
            simp [get_side, get_mirror_name, findReplaceDict, findReplaceEnd, mirror_sides_dict_L, mirror_sides_end_L, mirror_sides_dict_R, mirror_sides_end_R, c1, c2, c3, c4]
          rw [hside, hmir]
          exact replaceAll_ne_nil _ _ _ (by decide) (isSuffixOf_ne_nil _ _ c4 (by decide))
        ·
          by_cases c5 : ("_l".data).isSuffixOf name = true
          · have hside : get_side name = 'L' := by
              simp [get_side, get_mirror_name, findReplaceDict, findReplaceEnd, mirror_sides_dict_L, mirror_sides_end_L, mirror_sides_dict_R, mirror_sides_end_R, c1, c2, c3, c4, c5]
            have hmir : get_mirror_name 'L' name = replaceAll ("_l".data) ("_r".data) name := by
              simp [get_side, get_mirror_name, findReplaceDict, findReplaceEnd, mirror_sides_dict_L, mirror_sides_end_L, mirror_sides_dict_R, mirror_sides_end_R, c1, c2, c3, c4, c5]
            rw [hside, hmir]
            exact replaceAll_ne_nil _ _ _ (by decide) (isSuffixOf_ne_nil _ _ c5 (by decide))
          ·
            by_cases d1 : hasSubstr "right".data name = true
            · have hside : get_side name = 'R' := by
                simp [get_side, get_mirror_name, findReplaceDict, findReplaceEnd, mirror_sides_dict_L, mirror_sides_end_L, mirror_sides_dict_R, mirror_sides_end_R, c1, c2, c3, c4, c5, d1]
              have hmir : get_mirror_name 'R' name = replaceAll ("right".data) ("left".data) name := by
                simp [get_side, get_mirror_name, findReplaceDict, findReplaceEnd, mirror_sides_dict_L, mirror_sides_end_L, mirror_sides_dict_R, mirror_sides_end_R, c1, c2, c3, c4, c5, d1]
              rw [hside, hmir]
              exact replaceAll_ne_nil _ _ _ (by decide) (hasSubstr_ne_nil _ _ d1 (by decide))
            ·
              by_cases d2 : hasSubstr "Right".data name = true
              · have hside : get_side name = 'R' := by
                  simp [get_side, get_mirror_name, findReplaceDict, findReplaceEnd, mirror_sides_dict_L, mirror_sides_end_L, mirror_sides_dict_R, mirror_sides_end_R, c1, c2, c3, c4, c5, d1, d2]
                have hmir : get_mirror_name 'R' name = replaceAll ("Right".data) ("Left".data) name := by
                  simp [get_side, get_mirror_name, findReplaceDict, findReplaceEnd, mirror_sides_dict_L, mirror_sides_end_L, mirror_sides_dict_R, mirror_sides_end_R, c1, c2, c3, c4, c5, d1, d2]
                rw [hside, hmir]
                exact replaceAll_ne_nil _ _ _ (by decide) (hasSubstr_ne_nil _ _ d2 (by decide))
              ·
                by_cases d3 : hasSubstr "RIGHT".data name = true
                · have hside : get_side name = 'R' := by
                    simp [get_side, get_mirror_name, findReplaceDict, findReplaceEnd, mirror_sides_dict_L, mirror_sides_end_L, mirror_sides_dict_R, mirror_sides_end_R, c1, c2, c3, c4, c5, d1, d2, d3]
                  have hmir : get_mirror_name 'R' name = replaceAll ("RIGHT".data) ("LEFT".data) name := by
                    simp [get_side, get_mirror_name, findReplaceDict, findReplaceEnd, mirror_sides_dict_L, mirror_sides_end_L, mirror_sides_dict_R, mirror_sides_end_R, c1, c2, c3, c4, c5, d1, d2, d3]
                  rw [hside, hmir]
                  exact replaceAll_ne_nil _ _ _ (by decide) (hasSubstr_ne_nil _ _ d3 (by decide))
                ·
                  by_cases d4 : ("R".data).isSuffixOf name = true
                  · have hside : get_side name = 'R' := by
                      simp [get_side, get_mirror_name, findReplaceDict, findReplaceEnd, mirror_sides_dict_L, mirror_sides_end_L, mirror_sides_dict_R, mirror_sides_end_R, c1, c2, c3, c4, c5, d1, d2, d3, d4]
                    have hmir : get_mirror_name 'R' name = replaceAll ("R".data) ("L".data) name := by
                      simp [get_side, get_mirror_name, findReplaceDict, findReplaceEnd, mirror_sides_dict_L, mirror_sides_end_L, mirror_sides_dict_R, mirror_sides_end_R, c1, c2, c3, c4, c5, d1, d2, d3, d4]
                    rw [hside, hmir]
                    exact replaceAll_ne_nil _ _ _ (by decide) (isSuffixOf_ne_nil _ _ d4 (by decide))
                  ·
                    by_cases d5 : ("_r".data).isSuffixOf name = true
                    · have hside : get_side name = 'R' := by
                        simp [get_side, get_mirror_name, findReplaceDict, findReplaceEnd, mirror_sides_dict_L, mirror_sides_end_L, mirror_sides_dict_R, mirror_sides_end_R, c1, c2, c3, c4, c5, d1, d2, d3, d4, d5]
                      have hmir : get_mirror_name 'R' name = replaceAll ("_r".data) ("_l".data) name := by
                        simp [get_side, get_mirror_name, findReplaceDict, findReplaceEnd, mirror_sides_dict_L, mirror_sides_end_L, mirror_sides_dict_R, mirror_sides_end_R, c1, c2, c3, c4, c5, d1, d2, d3, d4, d5]
                      rw [hside, hmir]
                      exact replaceAll_ne_nil _ _ _ (by decide) (isSuffixOf_ne_nil _ _ d5 (by decide))
                    ·
                      have hn : get_side name = 'N' := by
                        simp [get_side, get_mirror_name, findReplaceDict, findReplaceEnd, mirror_sides_dict_L, mirror_sides_end_L, mirror_sides_dict_R, mirror_sides_end_R, c1, c2, c3, c4, c5, d1, d2, d3, d4, d5]
                      rcases h with h | h <;> rw [hn] at h <;> exact absurd h (by decide)

theorem mirror_roundtrip_single_token (p : List Char)
    (hn1 : hasSubstr "left".data (p ++ "Left".data) = false)
    (hn2 : ∀ i < p.length, ¬ ("Left".data.isPrefixOf ((p ++ "Left".data).drop i) = true))
    (hm1 : hasSubstr "left".data (p ++ "Right".data) = false)
    (hm2 : hasSubstr "Left".data (p ++ "Right".data) = false)
    (hm3 : hasSubstr "LEFT".data (p ++ "Right".data) = false)
    (hm4 : "L".data.isSuffixOf (p ++ "Right".data) = false)
    (hm5 : "_l".data.isSuffixOf (p ++ "Right".data) = false)
    (hm6 : hasSubstr "right".data (p ++ "Right".data) = false)
    (hm7 : ∀ i < p.length, ¬ ("Right".data.isPrefixOf ((p ++ "Right".data).drop i) = true)) :
    get_side (p ++ "Left".data) = 'L' ∧
    get_mirror_name 'L' (p ++ "Left".data) = p ++ "Right".data ∧
    get_side (p ++ "Right".data) = 'R' ∧
    get_mirror_name 'R' (p ++ "Right".data) = p ++ "Left".data := by
  have hsub : hasSubstr "Left".data (p ++ "Left".data) = true :=
    hasSubstr_append_self p "Left".data
  have hsubR : hasSubstr "Right".data (p ++ "Right".data) = true :=
    hasSubstr_append_self p "Right".data
  refine ⟨?_, ?_, ?_, ?_⟩
  · simp [get_side, mirror_sides_dict_L, hsub]
  · have hfd : findReplaceDict mirror_sides_dict_L (p ++ "Left".data) =
        some (replaceAll "Left".data "Right".data (p ++ "Left".data)) := by
      simp [findReplaceDict, mirror_sides_dict_L, hn1, hsub]
    simp only [get_mirror_name, if_pos rfl, hfd]
    exact replaceAll_unique_end _ _ _ (by decide) hn2
  · simp [get_side, mirror_sides_dict_L, mirror_sides_dict_R, mirror_sides_end_L,
      hm1, hm2, hm3, hm4, hm5, hsubR]
  · have hfd : findReplaceDict mirror_sides_dict_R (p ++ "Right".data) =
        some (replaceAll "Right".data "Left".data (p ++ "Right".data)) := by
      simp [findReplaceDict, mirror_sides_dict_R, hm6, hsubR]
    simp only [get_mirror_name, hfd, if_true]
    exact replaceAll_unique_end _ _ _ (by decide) hm7

/-- Claim C6 counterexample: the expression name "left_l" has side L, its
mirror name is "right_l", but the mirror's side is L again (suffix "_l"),
not the opposite side; and "LeftRight" (side L) mirrors to "RightRight"
(side R) which mirrors back to "LeftLeft" — `str.replace` replaces every
occurrence — so double mirroring is not the identity. -/
theorem get_mirror_name_counterexample :
    get_side "left_l".data = 'L' ∧
    get_mirror_name 'L' "left_l".data = "right_l".data ∧
    get_side "right_l".data = 'L' ∧
    get_side "LeftRight".data = 'L' ∧
    get_mirror_name 'L' "LeftRight".data = "RightRight".data ∧
    get_side "RightRight".data = 'R' ∧
    get_mirror_name 'R' "RightRight".data = "LeftLeft".data ∧
    "LeftLeft".data ≠ "LeftRight".data := by decide

/-- Claim C6 (amended): for every expression name with side L or R,
`get_mirror_name` returns a non-empty name; and for names made of a prefix
followed by a single side token — here `p ++ "Left"` where no other side
marker occurs in the name or its mirror — the mirror has the opposite side
and mirroring twice is the identity.  (In general the mirror's side need
not be opposite and double mirroring need not be the identity: `str.replace`
replaces every occurrence and bare suffix letters match unrelated
characters — see the counterexample.) -/
theorem get_mirror_name_mirror_spec (name p : List Char) :
    ((get_side name = 'L' ∨ get_side name = 'R') →
      get_mirror_name (get_side name) name ≠ []) ∧
    (hasSubstr "left".data (p ++ "Left".data) = false →
     (∀ i < p.length, ¬ ("Left".data.isPrefixOf ((p ++ "Left".data).drop i) = true)) →
     hasSubstr "left".data (p ++ "Right".data) = false →
     hasSubstr "Left".data (p ++ "Right".data) = false →
     hasSubstr "LEFT".data (p ++ "Right".data) = false →
     "L".data.isSuffixOf (p ++ "Right".data) = false →
     "_l".data.isSuffixOf (p ++ "Right".data) = false →
     hasSubstr "right".data (p ++ "Right".data) = false →
     (∀ i < p.length, ¬ ("Right".data.isPrefixOf ((p ++ "Right".data).drop i) = true)) →
      get_side (p ++ "Left".data) = 'L' ∧
      get_mirror_name 'L' (p ++ "Left".data) = p ++ "Right".data ∧
      get_side (p ++ "Right".data) = 'R' ∧
      get_mirror_name 'R' (p ++ "Right".data) = p ++ "Left".data) :=
  ⟨fun h => mirror_nonempty name h,
   fun h1 h2 h3 h4 h5 h6 h7 h8 h9 =>
     mirror_roundtrip_single_token p h1 h2 h3 h4 h5 h6 h7 h8 h9⟩

theorem get_mirror_name_mirror_spec_witness :
    get_side "smileLeft".data = 'L' ∧
    get_mirror_name 'L' "smileLeft".data ≠ [] ∧
    get_mirror_name 'L' "smileLeft".data = "smileRight".data ∧
    get_side "smileRight".data = 'R' ∧
    get_mirror_name 'R' "smileRight".data = "smileLeft".data := by
  have h := get_mirror_name_mirror_spec "smileLeft".data "smile".data
  have hrt := h.2 (by decide) (by decide) (by decide) (by decide) (by decide)
    (by decide) (by decide) (by decide) (by decide)
  have e1 : "smile".data ++ "Left".data = "smileLeft".data := by decide
  have e2 : "smile".data ++ "Right".data = "smileRight".data := by decide
  rw [e1, e2] at hrt
  obtain ⟨w1, w2, w3, w4⟩ := hrt
  have hne := h.1 (Or.inl w1)
  rw [w1] at hne
  exact ⟨w1, hne, w2, w3, w4⟩
